import Mathlib

/-!
Orabeat: counter-delta tracking and the session registry.

A shallow embedding of `beater/orabeat.go`.

* Go `string`s are Lean `String`s; the only byte the code looks for is the ASCII
  period, which never occurs inside a multi-byte UTF-8 sequence, so working on
  characters and working on bytes agree.
* `float64` counter values are an arbitrary type `α` carrying the two things the
  code uses, the constant `0` and subtraction.  Every general theorem holds for
  whatever arithmetic `α` has; the concrete scenarios use `Int` with small
  values, on which `float64` subtraction is exact.
* A Go `map[string]V` is an association list with at most one binding per key
  (`GoMap`).  A nil map and an empty map read the same, and both are `[]`.
* `uint32` session ids and serial numbers are natural numbers.
* The database collaborator is an input: a query either fails or yields a list
  of rows, each of which either decodes or fails to decode.
* The event sink is the list of documents it has accepted, oldest first.
* libbeat's `common.MustParseTime` is a parameter `parseTime`; when it yields
  `none` the Go function panics.  `mustParseTime` fixes the one input on which
  the layout decides without looking at any digit: the empty string is rejected.
-/

namespace Beater

/-! ## Go maps -/

/-- A Go `map[string]V`: association list, first binding of a key wins. -/
abbrev GoMap (β : Type) := List (String × β)

/-- Lookup `v, ok := m[k]`: `some v` when `ok`, `none` otherwise. -/
def GoMap.find {β : Type} : GoMap β → String → Option β
  | [], _ => none
  | (k', v) :: m, k => if k' = k then some v else GoMap.find m k

/-- Assignment `m[k] = v`: overwrite the binding of `k` or add one. -/
def GoMap.assign {β : Type} : GoMap β → String → β → GoMap β
  | [], k, v => [(k, v)]
  | (k', v') :: m, k, v => if k' = k then (k', v) :: m else (k', v') :: GoMap.assign m k v

/-- The keys of a map, in storage order. -/
def GoMap.keys {β : Type} (m : GoMap β) : List String := m.map Prod.fst

/-! ## `cleanupStatName` -/

/-- Whether the second list starts the first (Go `strings.HasPrefix`). -/
def startsWith : List Char → List Char → Bool
  | _, [] => true
  | [], _ :: _ => false
  | c :: cs, p :: ps => c == p && startsWith cs ps

/-- Go `strings.Replace(s, old, new, -1)` for a non-empty `old`: scan left to
right, at each position where `old` starts emit `new` and step over `old`
(`skip` counts the characters of the current occurrence still to step over),
otherwise copy the character. -/
def stringsReplace (old new : List Char) : Nat → List Char → List Char
  | _, [] => []
  | k + 1, _ :: cs => stringsReplace old new k cs
  | 0, c :: cs =>
    if startsWith (c :: cs) old then new ++ stringsReplace old new (old.length - 1) cs
    else c :: stringsReplace old new 0 cs

/-- Source `cleanupStatName`: `strings.Replace(copy, ".", "", -1)`. -/
def cleanupStatName (original : String) : String :=
  String.mk (stringsReplace ['.'] [] 0 original.data)

/-! ## `sessionId` -/

/-- Decimal digits of `u`, most significant first, in front of `acc`; the loop of
Go's integer formatting (`for u >= 10 { emit u % 10; u /= 10 }; emit u`).  The
first argument bounds the number of iterations. -/
def formatUintAux : Nat → Nat → List Char → List Char
  | 0, u, acc => Nat.digitChar u :: acc
  | fuel + 1, u, acc =>
    if u < 10 then Nat.digitChar u :: acc
    else formatUintAux fuel (u / 10) (Nat.digitChar (u % 10) :: acc)

/-- The verb `%d` applied to an unsigned integer. -/
def formatUint (u : Nat) : List Char := formatUintAux u u []

/-- Source `sessionId`: `fmt.Sprintf("%d,%d", sid, serial)`. -/
def sessionId (sid serial : Nat) : String :=
  String.mk (formatUint sid ++ ',' :: formatUint serial)

/-! ## Sessions and the registry -/

/-- Source `Session` (the lock `l` has no content in a sequential run). -/
structure Session (α : Type) where
  sid : Nat
  serial : Nat
  machine : String
  username : String
  program : String
  prevMetrics : GoMap α
  metrics : GoMap α
  change : GoMap α
deriving DecidableEq, Repr

/-- Source `SessionStatistics`: the registry `Sessions map[string]*Session`.
Every `*Session` is stored under exactly one key and is reachable only through
it, so the slot holds the session itself. -/
structure SessionStatistics (α : Type) where
  Sessions : GoMap (Session α)
deriving DecidableEq, Repr

/-- Source `NewSessionStatistics`. -/
def NewSessionStatistics (α : Type) : SessionStatistics α := { Sessions := [] }

/-- Source `(*Session).addSessionStat`. -/
def Session.addSessionStat {α : Type} [Zero α] [Sub α] (s : Session α) (statName : String)
    (value : α) : Session α :=
  let metrics := GoMap.assign s.metrics statName value
  let change : α :=
    match GoMap.find s.prevMetrics statName with
    | some prev => value - prev
    | none => 0
  { s with metrics := metrics, change := GoMap.assign s.change statName change }

/-- Source `(*Session).rollMetrics`. -/
def Session.rollMetrics {α : Type} (s : Session α) : Session α :=
  { s with prevMetrics := s.metrics, metrics := [] }

/-- The copy loop shared by `Metrics` and `Changes`:
`for k, v := range m { newMap[k] = v }`. -/
def copyMap {β : Type} (m : GoMap β) : GoMap β :=
  m.foldl (fun newMap kv => GoMap.assign newMap kv.1 kv.2) []

/-- Source `(*Session).Metrics`. -/
def Session.Metrics {α : Type} (s : Session α) : GoMap α := copyMap s.metrics

/-- Source `(*Session).Changes`. -/
def Session.Changes {α : Type} (s : Session α) : GoMap α := copyMap s.change

/-- The read-locked section of `ensureSession`:
`sess, ok = ss.Sessions[sessId]`.  A `*Session` is the session it points to,
`none` is the nil pointer. -/
def SessionStatistics.ensureSessionLookup {α : Type} (ss : SessionStatistics α)
    (sid serial : Nat) : Option (Session α) × Bool :=
  match GoMap.find ss.Sessions (sessionId sid serial) with
  | some s => (some s, true)
  | none => (none, false)

/-- The write-locked section of `ensureSession`, entered when the lookup missed;
`sess` is the caller's local variable as the lookup left it.  Returns the
registry and the value of `sess` at `return sess`. -/
def SessionStatistics.ensureSessionCreate {α : Type} (ss : SessionStatistics α)
    (sess : Option (Session α)) (sid serial : Nat) (machine username program : String) :
    SessionStatistics α × Option (Session α) :=
  match GoMap.find ss.Sessions (sessionId sid serial) with
  | some _ => (ss, sess)
  | none =>
    let created : Session α :=
      { sid := sid, serial := serial, machine := machine, username := username,
        program := program, prevMetrics := [], metrics := [], change := [] }
    ({ Sessions := GoMap.assign ss.Sessions (sessionId sid serial) created }, some created)

/-- Source `(*SessionStatistics).ensureSession`, run without interference. -/
def SessionStatistics.ensureSession {α : Type} (ss : SessionStatistics α)
    (sid serial : Nat) (machine username program : String) :
    SessionStatistics α × Option (Session α) :=
  match ss.ensureSessionLookup sid serial with
  | (sess, true) => (ss, sess)
  | (sess, false) => ss.ensureSessionCreate sess sid serial machine username program

/-- Source `(*SessionStatistics).rollMetrics`. -/
def SessionStatistics.rollMetrics {α : Type} (ss : SessionStatistics α) : SessionStatistics α :=
  { Sessions := ss.Sessions.map (fun kv => (kv.1, kv.2.rollMetrics)) }

/-! ## The beat: collaborators, state and the two collection cycles -/

/-- What `Query()` followed by the `Next`/`Scan` loop delivers: `none` when the
query fails, otherwise the rows in the order returned, each `none` when `Scan`
fails on it. -/
abbrev ResultSet (ρ : Type) := Option (List (Option ρ))

/-- One decoded row of `sysStatQuery`: `rows.Scan(&ts, &statName, &value)`. -/
structure SysRow (α : Type) where
  ts : String
  statName : String
  value : α
deriving DecidableEq, Repr

/-- One decoded row of `sesStatQuery`. -/
structure SesRow (α : Type) where
  machine : String
  username : String
  program : String
  sid : Nat
  serial : Nat
  statName : String
  value : α
deriving DecidableEq, Repr

/-- A document handed to `PublishEvent` (the constant `count: 1` of a session
document is left out). -/
inductive Event (τ α : Type) where
  | sysstat (timestamp : τ) (stats change : GoMap α)
  | sesstat (timestamp : τ) (sid serial : Nat) (machine username program : String)
      (stats change : GoMap α)
deriving DecidableEq, Repr

/-- How a collection cycle ends: `return nil`, `return err`, or a panic. -/
inductive Exit where
  | returnedNil
  | returnedErr
  | panicked
deriving DecidableEq, Repr

/-- The fields of source `Orabeat` the collection cycles read or write, with the
sink `events` as the documents published so far. -/
structure Orabeat (τ α : Type) where
  prevSystemStats : GoMap α
  sessionStatistics : SessionStatistics α
  events : List (Event τ α)
deriving DecidableEq, Repr

/-- The locals of `exportSystemStats` that live across loop iterations. -/
structure SysLoop (α : Type) where
  ts : String
  allStats : GoMap α
  allStatsChange : GoMap α
deriving DecidableEq, Repr

/-- One iteration of the row loop of `exportSystemStats` on a decoded row. -/
def sysRowStep {α : Type} [Zero α] [Sub α] (prevSystemStats : GoMap α) (st : SysLoop α)
    (r : SysRow α) : SysLoop α :=
  let cleanedStatName := cleanupStatName r.statName
  let change : α :=
    match GoMap.find prevSystemStats cleanedStatName with
    | some prev => r.value - prev
    | none => 0
  { ts := r.ts,
    allStats := GoMap.assign st.allStats cleanedStatName r.value,
    allStatsChange := GoMap.assign st.allStatsChange cleanedStatName change }

/-- The row loop of `exportSystemStats`; `none` when a `Scan` fails. -/
def sysLoop {α : Type} [Zero α] [Sub α] (prevSystemStats : GoMap α) :
    SysLoop α → List (Option (SysRow α)) → Option (SysLoop α)
  | st, [] => some st
  | _, none :: _ => none
  | st, some r :: rest => sysLoop prevSystemStats (sysRowStep prevSystemStats st r) rest

/-- Source `(*Orabeat).exportSystemStats`. -/
def exportSystemStats {τ α : Type} [Zero α] [Sub α] (parseTime : String → Option τ)
    (q : ResultSet (SysRow α)) (ob : Orabeat τ α) : Orabeat τ α × Exit :=
  match q with
  | none => (ob, Exit.returnedErr)
  | some rows =>
    match sysLoop ob.prevSystemStats { ts := "", allStats := [], allStatsChange := [] } rows with
    | none => (ob, Exit.returnedErr)
    | some st =>
      match parseTime st.ts with
      | none => (ob, Exit.panicked)
      | some t =>
        ({ ob with
            events := ob.events ++ [Event.sysstat t st.allStats st.allStatsChange],
            prevSystemStats := st.allStats },
          Exit.returnedNil)

/-- One iteration of the gathering loop of `exportSessionStats` on a decoded
row: `ensureSession`, then `addSessionStat` through the returned pointer, that
is on the registry slot of the row's key.  `none` is the nil-pointer panic. -/
def sesRowStep {α : Type} [Zero α] [Sub α] (ss : SessionStatistics α) (r : SesRow α) :
    Option (SessionStatistics α) :=
  match ss.ensureSession r.sid r.serial r.machine r.username r.program with
  | (ss1, some sess) =>
    some { Sessions := GoMap.assign ss1.Sessions (sessionId r.sid r.serial)
             (sess.addSessionStat (cleanupStatName r.statName) r.value) }
  | (_, none) => none

/-- The gathering loop of `exportSessionStats`: the registry reached and how the
loop ended (`returnedNil` stands for running to the end of the rows). -/
def sesLoop {α : Type} [Zero α] [Sub α] :
    SessionStatistics α → List (Option (SesRow α)) → SessionStatistics α × Exit
  | ss, [] => (ss, Exit.returnedNil)
  | ss, none :: _ => (ss, Exit.returnedErr)
  | ss, some r :: rest =>
    match sesRowStep ss r with
    | some ss1 => sesLoop ss1 rest
    | none => (ss, Exit.panicked)

/-- The publishing loop of `exportSessionStats`: one document per registry
entry; `now i` is the clock reading taken for the `i`-th document. -/
def sessionEvents {τ α : Type} (now : Nat → τ) : Nat → GoMap (Session α) → List (Event τ α)
  | _, [] => []
  | i, (_, s) :: rest =>
    Event.sesstat (now i) s.sid s.serial s.machine s.username s.program s.Metrics s.Changes
      :: sessionEvents now (i + 1) rest

/-- Source `(*Orabeat).exportSessionStats`. -/
def exportSessionStats {τ α : Type} [Zero α] [Sub α] (now : Nat → τ)
    (q : ResultSet (SesRow α)) (ob : Orabeat τ α) : Orabeat τ α × Exit :=
  match q with
  | none => (ob, Exit.returnedErr)
  | some rows =>
    match sesLoop ob.sessionStatistics rows with
    | (ss, Exit.returnedNil) =>
      ({ ob with
          events := ob.events ++ sessionEvents now 0 ss.Sessions,
          sessionStatistics := ss.rollMetrics },
        Exit.returnedNil)
    | (ss, e) => ({ ob with sessionStatistics := ss }, e)

/-- Two `ensureSession` calls with the same arguments whose read-locked lookups
both run before either write-locked section: lookup of A, lookup of B, then the
rest of A, then the rest of B.  Returns the registry and what A and B return. -/
def ensureSessionInterleaved {α : Type} (ss : SessionStatistics α) (sid serial : Nat)
    (machine username program : String) :
    SessionStatistics α × Option (Session α) × Option (Session α) :=
  let a := ss.ensureSessionLookup sid serial
  let b := ss.ensureSessionLookup sid serial
  let ra := if a.2 then (ss, a.1) else ss.ensureSessionCreate a.1 sid serial machine username program
  let rb :=
    if b.2 then (ra.1, b.1) else ra.1.ensureSessionCreate b.1 sid serial machine username program
  (rb.1, ra.2, rb.2)

/-! ## Vocabulary of the specification -/

/-- The value of the last row whose normalized name is `n`, if there is one. -/
def lastValue {α : Type} (rows : List (SysRow α)) (n : String) : Option α :=
  (rows.reverse.find? (fun r => decide (cleanupStatName r.statName = n))).map SysRow.value

/-- The delta the specification assigns to a value `v` of counter `n` against a
previous snapshot: `v - P[n]` when `n` is a key, `0` on a first observation. -/
def deltaAgainst {α : Type} [Zero α] [Sub α] (previous : GoMap α) (n : String) (v : α) : α :=
  match GoMap.find previous n with
  | some p => v - p
  | none => 0

/-- libbeat's `common.MustParseTime` as far as its layout
`2006-01-02T15:04:05.000Z` settles the outcome by itself: `time.Parse` rejects
the empty string, so the call panics (`none`); on every other string the outcome
is that of `parseTime`. -/
def mustParseTime {τ : Type} (parseTime : String → Option τ) (ts : String) : Option τ :=
  if ts = "" then none else parseTime ts

/-- The starting state of a beat with both collections enabled (`Setup`). -/
def Orabeat.start (τ α : Type) : Orabeat τ α :=
  { prevSystemStats := [], sessionStatistics := NewSessionStatistics α, events := [] }

/-! ## Runs, scenarios and proof vocabulary -/

/-- The normalized names of a list of decoded rows, in row order. -/
def normalizedNames {α : Type} (rows : List (SysRow α)) : List String :=
  rows.map (fun r => cleanupStatName r.statName)

/-- The timestamp string `exportSystemStats` holds after its row loop: that of
the last row, the empty string when there is no row. -/
def finalTs {α : Type} (rows : List (SysRow α)) : String :=
  match rows.getLast? with
  | some r => r.ts
  | none => ""

/-- Successive instance collection cycles on one beat, with how each ended.  A
panic ends the process, so the cycles after it do not run. -/
def runInstanceCycles {τ α : Type} [Zero α] [Sub α] (parseTime : String → Option τ) :
    List (ResultSet (SysRow α)) → Orabeat τ α → Orabeat τ α × List Exit
  | [], ob => (ob, [])
  | q :: qs, ob =>
    match exportSystemStats parseTime q ob with
    | (ob1, Exit.panicked) => (ob1, [Exit.panicked])
    | (ob1, e) => ((runInstanceCycles parseTime qs ob1).1, e :: (runInstanceCycles parseTime qs ob1).2)

/-- A result set with the single counter `cpuused`. -/
def cpuUsed (ts : String) (value : Int) : ResultSet (SysRow Int) :=
  some [some { ts := ts, statName := "cpuused", value := value }]

/-- The four observations of the instance scenario: `cpuused` 100, then 150,
then an empty result set, then `cpuused` 10. -/
def instanceScenario : List (ResultSet (SysRow Int)) :=
  [cpuUsed "2016-03-16T01:27:39.047Z" 100, cpuUsed "2016-03-16T01:27:49.047Z" 150, some [],
    cpuUsed "2016-03-16T01:28:09.047Z" 10]

/-- The `addSessionStat` calls of one cycle on one session, in order. -/
def recordAll {α : Type} [Zero α] [Sub α] (s : Session α) (calls : List (String × α)) :
    Session α :=
  calls.foldl (fun acc c => acc.addSessionStat c.1 c.2) s

/-- Successive session collection cycles on one beat (cycle `i` stamps its
documents with `now i`), with how each ended; a panic ends the process. -/
def runSessionCycles {τ α : Type} [Zero α] [Sub α] (now : Nat → Nat → τ) :
    Nat → List (ResultSet (SesRow α)) → Orabeat τ α → Orabeat τ α × List Exit
  | _, [], ob => (ob, [])
  | i, q :: qs, ob =>
    match exportSessionStats (now i) q ob with
    | (ob1, Exit.panicked) => (ob1, [Exit.panicked])
    | (ob1, e) =>
      ((runSessionCycles now (i + 1) qs ob1).1, e :: (runSessionCycles now (i + 1) qs ob1).2)

/-- A session-statistics row of the scenario sessions. -/
def blockGets (sid serial : Nat) (value : Int) : Option (SesRow Int) :=
  some { machine := "db01", username := "SCOTT", program := "sqlplus", sid := sid,
         serial := serial, statName := "dbblockgets", value := value }

/-- Session (5, 9) reports 3, then 7, and is then absent from a cycle in which
only session (6, 1) reports. -/
def sessionScenario : List (ResultSet (SesRow Int)) :=
  [some [blockGets 5 9 3], some [blockGets 5 9 7], some [blockGets 6 1 1]]

/-- Session (5, 9) of the scenarios with the given counter maps. -/
def scott (prevMetrics metrics change : GoMap Int) : Session Int :=
  { sid := 5, serial := 9, machine := "db01", username := "SCOTT", program := "sqlplus",
    prevMetrics := prevMetrics, metrics := metrics, change := change }

/-- The digit a decimal character stands for. -/
def digitVal (c : Char) : Nat := c.toNat - 48

/-- The number a string of decimal digits stands for. -/
def decodeUint (l : List Char) : Nat := l.foldl (fun a c => 10 * a + digitVal c) 0

/-- The relation between `change`, `current` and `previous` at key `k`, against
the baseline `base`. -/
def deltaInv {α : Type} [Zero α] [Sub α] (base : GoMap α) (s : Session α) (k : String) : Prop :=
  ∃ v, GoMap.find s.metrics k = some v ∧ GoMap.find s.change k = some (deltaAgainst base k v)

/-! ## Normalizing names and session keys -/

theorem stringsReplace_period (l : List Char) :
    stringsReplace ['.'] [] 0 l = l.filter (fun c => c != '.') := by
  induction l with
  | nil => rfl
  | cons c cs ih =>
    by_cases hc : c = '.'
    · subst hc
      simp [stringsReplace, startsWith, ih]
    · simp [stringsReplace, startsWith, ih, hc]

theorem digitChar_spec (u : Nat) (h : u < 10) :
    digitVal (Nat.digitChar u) = u ∧ Nat.digitChar u ≠ ',' := by
  interval_cases u <;> decide

theorem formatUintAux_acc (fuel : Nat) : ∀ (u : Nat) (acc : List Char),
    formatUintAux fuel u acc = formatUintAux fuel u [] ++ acc := by
  induction fuel with
  | zero => intro u acc; simp [formatUintAux]
  | succ n ih =>
    intro u acc
    unfold formatUintAux
    split
    · simp
    · rw [ih (u / 10) (Nat.digitChar (u % 10) :: acc), ih (u / 10) [Nat.digitChar (u % 10)]]
      simp

theorem decodeUint_snoc (l : List Char) (c : Char) :
    decodeUint (l ++ [c]) = 10 * decodeUint l + digitVal c := by
  simp [decodeUint, List.foldl_append]

theorem formatUintAux_spec (fuel : Nat) : ∀ (u : Nat), u ≤ fuel →
    decodeUint (formatUintAux fuel u []) = u ∧ ',' ∉ formatUintAux fuel u [] := by
  induction fuel with
  | zero =>
    intro u hu
    have h0 : u = 0 := by omega
    subst h0
    simp [formatUintAux, decodeUint]
    decide
  | succ n ih =>
    intro u hu
    unfold formatUintAux
    split
    · rename_i hlt
      have := digitChar_spec u hlt
      simp [decodeUint, this.1, Ne.symm this.2]
    · rename_i hge
      have hdiv : u / 10 ≤ n := by omega
      have hmod := digitChar_spec (u % 10) (Nat.mod_lt _ (by decide))
      rw [formatUintAux_acc]
      obtain ⟨h1, h2⟩ := ih (u / 10) hdiv
      refine ⟨?_, ?_⟩
      · rw [decodeUint_snoc, h1, hmod.1]; omega
      · simp [h2, Ne.symm hmod.2]

theorem formatUint_spec (u : Nat) : decodeUint (formatUint u) = u ∧ ',' ∉ formatUint u :=
  formatUintAux_spec u u (le_refl u)

theorem append_comma_inj (a b c d : List Char) (ha : ',' ∉ a) (hc : ',' ∉ c)
    (h : a ++ ',' :: b = c ++ ',' :: d) : a = c ∧ b = d := by
  induction a generalizing c with
  | nil =>
    cases c with
    | nil => simpa using h
    | cons x xs =>
      simp at h
      simp at hc
      exact absurd h.1 hc.1
  | cons y ys ih =>
    cases c with
    | nil =>
      simp at h
      simp at ha
      exact absurd h.1.symm ha.1
    | cons x xs =>
      simp at h ha hc
      obtain ⟨r1, r2⟩ := ih xs ha.2 hc.2 h.2
      exact ⟨by rw [h.1, r1], r2⟩

/-- C10: `cleanupStatName raw` is `raw` with every period removed and every other
character kept in order; the result has no period, and a name without a period
is returned as it is.  The function is total, so there is no error case. -/
theorem cleanupStatName_removes_periods (raw : String) :
    cleanupStatName raw = String.mk (raw.data.filter (fun c => c != '.')) ∧
    '.' ∉ (cleanupStatName raw).data ∧
    ('.' ∉ raw.data → cleanupStatName raw = raw) := by
  have h : cleanupStatName raw = String.mk (raw.data.filter (fun c => c != '.')) := by
    simp [cleanupStatName, stringsReplace_period]
  refine ⟨h, ?_, ?_⟩
  · rw [h]; simp [List.mem_filter]
  · intro hno
    rw [h]
    have : raw.data.filter (fun c => c != '.') = raw.data := by
      rw [List.filter_eq_self]
      intro c hc
      have : c ≠ '.' := fun e => hno (e ▸ hc)
      simpa using this
    rw [this]

theorem cleanupStatName_removes_periods_witness :
    '.' ∉ ("user commits").data ∧ cleanupStatName "user commits" = "user commits" :=
  ⟨by decide, (cleanupStatName_removes_periods "user commits").2.2 (by decide)⟩

theorem sessionId_inj (a b c d : Nat) (h : sessionId a b = sessionId c d) : a = c ∧ b = d := by
  have hd : formatUint a ++ ',' :: formatUint b = formatUint c ++ ',' :: formatUint d :=
    congrArg String.data h
  obtain ⟨e1, e2⟩ := append_comma_inj _ _ _ _ (formatUint_spec a).2 (formatUint_spec c).2 hd
  constructor
  · rw [← (formatUint_spec a).1, e1, (formatUint_spec c).1]
  · rw [← (formatUint_spec b).1, e2, (formatUint_spec d).1]

/-- C8: the registry key of `(sid1, serial1)` equals the key of `(sid2, serial2)`
exactly when both components agree; in particular one session id with two
different serial numbers gives two different keys. -/
theorem sessionId_eq_iff (sid1 serial1 sid2 serial2 : Nat) :
    (sessionId sid1 serial1 = sessionId sid2 serial2 ↔ sid1 = sid2 ∧ serial1 = serial2) ∧
    (serial1 ≠ serial2 → sessionId sid1 serial1 ≠ sessionId sid1 serial2) := by
  refine ⟨⟨sessionId_inj _ _ _ _, ?_⟩, fun hne heq => hne (sessionId_inj _ _ _ _ heq).2⟩
  rintro ⟨rfl, rfl⟩
  rfl

theorem sessionId_eq_iff_witness :
    (7 : Nat) ≠ 8 ∧ sessionId 5 7 ≠ sessionId 5 8 :=
  ⟨by decide, (sessionId_eq_iff 5 7 5 8).2 (by decide)⟩

/-! ## Map and loop lemmas -/

theorem GoMap.find_assign_same {β : Type} (m : GoMap β) (k : String) (v : β) :
    GoMap.find (GoMap.assign m k v) k = some v := by
  induction m with
  | nil => simp [GoMap.assign, GoMap.find]
  | cons kv m ih =>
    obtain ⟨k', v'⟩ := kv
    by_cases h : k' = k
    · simp [GoMap.assign, GoMap.find, h]
    · simp [GoMap.assign, GoMap.find, h, ih]

theorem GoMap.find_assign_ne {β : Type} (m : GoMap β) (k k2 : String) (v : β) (hne : k ≠ k2) :
    GoMap.find (GoMap.assign m k v) k2 = GoMap.find m k2 := by
  induction m with
  | nil => simp [GoMap.assign, GoMap.find, hne]
  | cons kv m ih =>
    obtain ⟨k', v'⟩ := kv
    by_cases h : k' = k
    · subst h
      simp [GoMap.assign, GoMap.find, hne]
    · by_cases h2 : k' = k2
      · subst h2
        simp [GoMap.assign, GoMap.find, h]
      · simp [GoMap.assign, GoMap.find, h, h2, ih]

theorem GoMap.mem_keys_iff {β : Type} (m : GoMap β) (k : String) :
    k ∈ GoMap.keys m ↔ ∃ v, GoMap.find m k = some v := by
  induction m with
  | nil => simp [GoMap.keys, GoMap.find]
  | cons kv m ih =>
    obtain ⟨k', v'⟩ := kv
    by_cases h : k' = k
    · simp [GoMap.keys, GoMap.find, h]
    · have ih2 : k ∈ List.map Prod.fst m ↔ ∃ v, GoMap.find m k = some v := ih
      simp [GoMap.keys, GoMap.find, h, ih2, Ne.symm h]

theorem GoMap.find_map {β γ : Type} (f : β → γ) (m : GoMap β) (k : String) :
    GoMap.find (m.map (fun kv => (kv.1, f kv.2))) k = (GoMap.find m k).map f := by
  induction m with
  | nil => simp [GoMap.find]
  | cons kv m ih =>
    obtain ⟨k', v'⟩ := kv
    by_cases h : k' = k
    · simp [GoMap.find, h]
    · simp only [List.map_cons, GoMap.find, h, if_false]
      exact ih

theorem lastValue_nil {α : Type} (n : String) : lastValue ([] : List (SysRow α)) n = none := rfl

theorem lastValue_cons {α : Type} (r : SysRow α) (rows : List (SysRow α)) (n : String) :
    lastValue (r :: rows) n =
      match lastValue rows n with
      | some v => some v
      | none => if cleanupStatName r.statName = n then some r.value else none := by
  unfold lastValue
  rw [List.reverse_cons, List.find?_append]
  cases h : List.find? (fun r => decide (cleanupStatName r.statName = n)) rows.reverse with
  | some x => simp
  | none =>
    by_cases hc : cleanupStatName r.statName = n
    · simp [hc]
    · simp [hc]

theorem lastValue_isSome_iff {α : Type} (rows : List (SysRow α)) (n : String) :
    (∃ v, lastValue rows n = some v) ↔ n ∈ normalizedNames rows := by
  induction rows with
  | nil => simp [lastValue_nil, normalizedNames]
  | cons r rows ih =>
    rw [lastValue_cons]
    have ih2 : (∃ v, lastValue rows n = some v) ↔ n ∈ List.map (fun r => cleanupStatName r.statName) rows := ih
    cases h : lastValue rows n with
    | some v =>
      have : n ∈ List.map (fun r => cleanupStatName r.statName) rows := ih2.mp ⟨v, h⟩
      simp [normalizedNames, this]
    | none =>
      have hn : ¬ n ∈ List.map (fun r => cleanupStatName r.statName) rows := by
        intro hm
        obtain ⟨v, hv⟩ := ih2.mpr hm
        rw [h] at hv
        cases hv
      by_cases hc : cleanupStatName r.statName = n
      · simp [normalizedNames, hc]
      · simp only [normalizedNames, List.map_cons, List.mem_cons, hc, if_false]
        constructor
        · rintro ⟨v, hv⟩; cases hv
        · rintro (h1 | h1)
          · exact absurd h1.symm hc
          · exact absurd h1 hn

theorem sysLoop_decoded {α : Type} [Zero α] [Sub α] (prev : GoMap α) (rows : List (SysRow α)) :
    ∀ st : SysLoop α, sysLoop prev st (rows.map some) = some (rows.foldl (sysRowStep prev) st) := by
  induction rows with
  | nil => intro st; rfl
  | cons r rows ih => intro st; simp [sysLoop, ih]

theorem sysLoop_scan_error {α : Type} [Zero α] [Sub α] (prev : GoMap α)
    (rows : List (Option (SysRow α))) (h : none ∈ rows) :
    ∀ st : SysLoop α, sysLoop prev st rows = none := by
  induction rows with
  | nil => simp at h
  | cons r rows ih =>
    intro st
    cases r with
    | none => rfl
    | some r =>
      simp only [sysLoop]
      exact ih (by simpa using h) _

theorem sysLoop_some_decoded {α : Type} [Zero α] [Sub α] (prev : GoMap α)
    (rows : List (Option (SysRow α))) :
    ∀ st st2 : SysLoop α, sysLoop prev st rows = some st2 →
      ∃ good : List (SysRow α), rows = good.map some := by
  induction rows with
  | nil => intro _ _ _; exact ⟨[], rfl⟩
  | cons r rows ih =>
    intro st st2 h
    cases r with
    | none => simp [sysLoop] at h
    | some r =>
      simp only [sysLoop] at h
      obtain ⟨good, hg⟩ := ih _ _ h
      exact ⟨r :: good, by simp [hg]⟩

theorem foldl_sysRowStep_spec {α : Type} [Zero α] [Sub α] (prev : GoMap α)
    (rows : List (SysRow α)) : ∀ (st : SysLoop α) (n : String),
    GoMap.find (rows.foldl (sysRowStep prev) st).allStats n =
      (match lastValue rows n with
       | some v => some v
       | none => GoMap.find st.allStats n) ∧
    GoMap.find (rows.foldl (sysRowStep prev) st).allStatsChange n =
      (match lastValue rows n with
       | some v => some (deltaAgainst prev n v)
       | none => GoMap.find st.allStatsChange n) := by
  induction rows with
  | nil => intro st n; simp [lastValue_nil]
  | cons r rows ih =>
    intro st n
    rw [List.foldl_cons, lastValue_cons]
    obtain ⟨h1, h2⟩ := ih (sysRowStep prev st r) n
    rw [h1, h2]
    cases hl : lastValue rows n with
    | some v => simp
    | none =>
      by_cases hc : cleanupStatName r.statName = n
      · subst hc
        simp [sysRowStep, GoMap.find_assign_same, deltaAgainst]
      · simp [sysRowStep, GoMap.find_assign_ne _ _ _ _ hc, hc]

theorem foldl_sysRowStep_ts {α : Type} [Zero α] [Sub α] (prev : GoMap α)
    (rows : List (SysRow α)) : ∀ (st : SysLoop α),
    (rows.foldl (sysRowStep prev) st).ts =
      (match rows.getLast? with
       | some r => r.ts
       | none => st.ts) := by
  induction rows with
  | nil => intro st; rfl
  | cons r rows ih =>
    intro st
    rw [List.foldl_cons, ih]
    cases rows with
    | nil => simp [sysRowStep]
    | cons r2 rows2 =>
      rw [List.getLast?_cons_cons]
      cases h : (r2 :: rows2).getLast? with
      | none => simp at h
      | some x => rfl

/-! ## The instance collection cycle -/

theorem exportSystemStats_decoded {τ α : Type} [Zero α] [Sub α] (parseTime : String → Option τ)
    (ob : Orabeat τ α) (rows : List (SysRow α)) (t : τ)
    (hts : parseTime (finalTs rows) = some t) :
    exportSystemStats parseTime (some (rows.map some)) ob =
      ({ ob with
          events := ob.events ++ [Event.sysstat t
            (rows.foldl (sysRowStep ob.prevSystemStats)
              { ts := "", allStats := [], allStatsChange := [] }).allStats
            (rows.foldl (sysRowStep ob.prevSystemStats)
              { ts := "", allStats := [], allStatsChange := [] }).allStatsChange],
          prevSystemStats :=
            (rows.foldl (sysRowStep ob.prevSystemStats)
              { ts := "", allStats := [], allStatsChange := [] }).allStats },
        Exit.returnedNil) := by
  have hts2 : parseTime (rows.foldl (sysRowStep ob.prevSystemStats)
      { ts := "", allStats := [], allStatsChange := [] }).ts = some t := by
    rw [foldl_sysRowStep_ts]
    exact hts
  simp only [exportSystemStats, sysLoop_decoded, hts2]

theorem snapshot_find {α : Type} [Zero α] [Sub α] (prev : GoMap α) (rows : List (SysRow α))
    (n : String) :
    GoMap.find (rows.foldl (sysRowStep prev)
      { ts := "", allStats := [], allStatsChange := [] }).allStats n = lastValue rows n := by
  rw [(foldl_sysRowStep_spec prev rows _ n).1]
  cases lastValue rows n <;> rfl

theorem snapshot_change_find {α : Type} [Zero α] [Sub α] (prev : GoMap α)
    (rows : List (SysRow α)) (n : String) :
    GoMap.find (rows.foldl (sysRowStep prev)
      { ts := "", allStats := [], allStatsChange := [] }).allStatsChange n =
      (lastValue rows n).map (deltaAgainst prev n) := by
  rw [(foldl_sysRowStep_spec prev rows _ n).2]
  cases lastValue rows n <;> rfl

/-- The delta contract of the instance cycle where it publishes: for every stored
previous snapshot and every result set whose rows all decode and whose final
timestamp string is accepted by the parser, the cycle
returns nil and publishes one document whose `stats` and `change` maps have the
normalized names of the result as their keys; for each such name `stats` holds
the value `v` of the last row with that name and `change` holds `v - P[n]` when
the name is a key of the previous snapshot and `0` when it is not. -/
theorem exportSystemStats_reports_deltas {τ α : Type} [Zero α] [Sub α]
    (parseTime : String → Option τ) (ob : Orabeat τ α) (rows : List (SysRow α)) (t : τ)
    (hts : parseTime (finalTs rows) = some t) :
    ∃ stats change : GoMap α,
      exportSystemStats parseTime (some (rows.map some)) ob =
        ({ ob with events := ob.events ++ [Event.sysstat t stats change],
                   prevSystemStats := stats }, Exit.returnedNil) ∧
      (∀ n, n ∈ GoMap.keys stats ↔ n ∈ normalizedNames rows) ∧
      (∀ n, n ∈ GoMap.keys change ↔ n ∈ normalizedNames rows) ∧
      (∀ n, n ∈ normalizedNames rows →
        ∃ v, lastValue rows n = some v ∧ GoMap.find stats n = some v ∧
          (∀ p, GoMap.find ob.prevSystemStats n = some p → GoMap.find change n = some (v - p)) ∧
          (GoMap.find ob.prevSystemStats n = none → GoMap.find change n = some 0)) := by
  refine ⟨_, _, exportSystemStats_decoded parseTime ob rows t hts, ?_, ?_, ?_⟩
  · intro n
    rw [GoMap.mem_keys_iff, ← lastValue_isSome_iff]
    simp only [snapshot_find]
  · intro n
    rw [GoMap.mem_keys_iff, ← lastValue_isSome_iff]
    simp only [snapshot_change_find]
    cases lastValue rows n <;> simp
  · intro n hn
    obtain ⟨v, hv⟩ := (lastValue_isSome_iff rows n).mpr hn
    refine ⟨v, hv, ?_, ?_, ?_⟩
    · rw [snapshot_find, hv]
    · intro p hp
      rw [snapshot_change_find, hv]
      simp [deltaAgainst, hp]
    · intro hp
      rw [snapshot_change_find, hv]
      simp [deltaAgainst, hp]

theorem exportSystemStats_reports_deltas_witness :
    ∃ stats change : GoMap Int,
      exportSystemStats (mustParseTime (fun s => some s))
          (some ([{ ts := "2016-03-16T01:27:39.047Z", statName := "user.commits", value := 12 }].map some))
          { prevSystemStats := [("usercommits", 5)], sessionStatistics := NewSessionStatistics Int,
            events := [] } =
        ({ prevSystemStats := stats, sessionStatistics := NewSessionStatistics Int,
           events := [] ++ [Event.sysstat "2016-03-16T01:27:39.047Z" stats change] }, Exit.returnedNil) ∧
      (∀ n, n ∈ GoMap.keys stats ↔
        n ∈ normalizedNames [({ ts := "2016-03-16T01:27:39.047Z", statName := "user.commits", value := 12 } : SysRow Int)]) ∧
      (∀ n, n ∈ GoMap.keys change ↔
        n ∈ normalizedNames [({ ts := "2016-03-16T01:27:39.047Z", statName := "user.commits", value := 12 } : SysRow Int)]) ∧
      (∀ n, n ∈ normalizedNames [({ ts := "2016-03-16T01:27:39.047Z", statName := "user.commits", value := 12 } : SysRow Int)] →
        ∃ v, lastValue [({ ts := "2016-03-16T01:27:39.047Z", statName := "user.commits", value := 12 } : SysRow Int)] n = some v ∧
          GoMap.find stats n = some v ∧
          (∀ p, GoMap.find [("usercommits", (5 : Int))] n = some p →
            GoMap.find change n = some (v - p)) ∧
          (GoMap.find [("usercommits", (5 : Int))] n = none → GoMap.find change n = some 0)) :=
  exportSystemStats_reports_deltas (mustParseTime (fun s => some s))
    { prevSystemStats := [("usercommits", 5)], sessionStatistics := NewSessionStatistics Int,
      events := [] }
    [{ ts := "2016-03-16T01:27:39.047Z", statName := "user.commits", value := 12 }]
    "2016-03-16T01:27:39.047Z" (by decide)

/-- C6: the stored previous snapshot is replaced as a whole or not at all.  A
query error and a decode error on any row both return the error with the beat
unchanged, so the snapshot is the old one and nothing has been published; a
cycle that returns nil has read a fully decoded result set; and after a cycle on
a fully decoded result set whose timestamp parses, the stored snapshot binds
exactly the normalized names of this result, each to its last value.  Whenever
the cycle does not return nil the beat is unchanged. -/
theorem exportSystemStats_previous_whole {τ α : Type} [Zero α] [Sub α]
    (parseTime : String → Option τ) (ob : Orabeat τ α) :
    exportSystemStats parseTime none ob = (ob, Exit.returnedErr) ∧
    (∀ rows : List (Option (SysRow α)), none ∈ rows →
      exportSystemStats parseTime (some rows) ob = (ob, Exit.returnedErr)) ∧
    (∀ (rows : List (SysRow α)) (t : τ), parseTime (finalTs rows) = some t →
      (exportSystemStats parseTime (some (rows.map some)) ob).2 = Exit.returnedNil ∧
      (∀ n, GoMap.find (exportSystemStats parseTime (some (rows.map some)) ob).1.prevSystemStats n =
        lastValue rows n) ∧
      (∀ n, n ∈ GoMap.keys (exportSystemStats parseTime (some (rows.map some)) ob).1.prevSystemStats ↔
        n ∈ normalizedNames rows)) ∧
    (∀ q, (exportSystemStats parseTime q ob).2 = Exit.returnedNil →
      ∃ rows : List (SysRow α), q = some (rows.map some)) ∧
    (∀ q, (exportSystemStats parseTime q ob).2 ≠ Exit.returnedNil →
      (exportSystemStats parseTime q ob).1 = ob) := by
  refine ⟨rfl, ?_, ?_, ?_, ?_⟩
  · intro rows h
    simp only [exportSystemStats, sysLoop_scan_error _ rows h]
  · intro rows t hts
    rw [exportSystemStats_decoded parseTime ob rows t hts]
    refine ⟨rfl, ?_, ?_⟩
    · intro n
      exact snapshot_find _ rows n
    · intro n
      rw [GoMap.mem_keys_iff, ← lastValue_isSome_iff]
      simp only [snapshot_find]
  · intro q hq
    cases q with
    | none => simp [exportSystemStats] at hq
    | some rows =>
      cases hl : sysLoop ob.prevSystemStats { ts := "", allStats := [], allStatsChange := [] } rows with
      | none => simp [exportSystemStats, hl] at hq
      | some st =>
        obtain ⟨good, hg⟩ := sysLoop_some_decoded _ rows _ st hl
        exact ⟨good, by rw [hg]⟩
  · intro q hq
    cases q with
    | none => rfl
    | some rows =>
      cases hl : sysLoop ob.prevSystemStats { ts := "", allStats := [], allStatsChange := [] } rows with
      | none => simp [exportSystemStats, hl]
      | some st =>
        cases hp : parseTime st.ts with
        | none => simp [exportSystemStats, hl, hp]
        | some t => simp [exportSystemStats, hl, hp] at hq

theorem exportSystemStats_previous_whole_witness :
    none ∈ [some ({ ts := "t", statName := "user commits", value := 7 } : SysRow Int), none] ∧
    exportSystemStats (fun s => some s)
        (some [some ({ ts := "t", statName := "user commits", value := 7 } : SysRow Int), none])
        { prevSystemStats := [("user commits", 5)], sessionStatistics := NewSessionStatistics Int,
          events := [] } =
      ({ prevSystemStats := [("user commits", 5)], sessionStatistics := NewSessionStatistics Int,
         events := [] }, Exit.returnedErr) :=
  ⟨by simp, (exportSystemStats_previous_whole (fun s => some s)
    { prevSystemStats := [("user commits", (5 : Int))],
      sessionStatistics := NewSessionStatistics Int, events := [] }).2.1 _ (by simp)⟩

theorem cleanup_cpuused : cleanupStatName "cpuused" = "cpuused" := by decide

theorem exportSystemStats_cpuUsed {τ : Type} (parseTime : String → Option τ) (ts : String)
    (v : Int) (ob : Orabeat τ Int) :
    exportSystemStats parseTime (cpuUsed ts v) ob =
      match parseTime ts with
      | none => (ob, Exit.panicked)
      | some t =>
        ({ ob with
            events := ob.events ++ [Event.sysstat t [("cpuused", v)]
              [("cpuused", deltaAgainst ob.prevSystemStats "cpuused" v)]],
            prevSystemStats := [("cpuused", v)] }, Exit.returnedNil) := by
  simp only [exportSystemStats, cpuUsed, sysLoop, sysRowStep, cleanup_cpuused, GoMap.assign,
    deltaAgainst]

theorem exportSystemStats_empty {τ : Type} (parseTime : String → Option τ)
    (ob : Orabeat τ Int) :
    exportSystemStats parseTime (some []) ob =
      match parseTime "" with
      | none => (ob, Exit.panicked)
      | some t =>
        ({ ob with events := ob.events ++ [Event.sysstat t [] []], prevSystemStats := [] },
          Exit.returnedNil) := by
  simp only [exportSystemStats, sysLoop]

/-- C1 fails on the code at the empty result set: the query succeeds and there
is no row to decode, the timestamp string is still empty after the loop,
`MustParseTime` panics on it, and the cycle ends without a document and with the
stored snapshot as it was, where the claim has it report empty `stats` and
`change` maps. -/
theorem exportSystemStats_empty_result_panics {τ α : Type} [Zero α] [Sub α]
    (parseTime : String → Option τ) (ob : Orabeat τ α) :
    exportSystemStats (mustParseTime parseTime) (some (([] : List (SysRow α)).map some)) ob =
      (ob, Exit.panicked) := by
  simp [exportSystemStats, sysLoop, mustParseTime]

/-- C9 as stated fails.  Whatever the timestamp parser, the four cycles of the
scenario never end with a fourth document whose change is `cpuused: 10`; and with
a parser that accepts every timestamp but the empty one, the third cycle panics
with the stored snapshot still `cpuused: 150` and two documents published, so the
fourth cycle does not run. -/
theorem instanceScenario_cycle4_change_not_10 :
    (¬ ∃ (parseTime : String → Option String) (ob : Orabeat String Int) (t4 : String),
        runInstanceCycles parseTime instanceScenario (Orabeat.start String Int) =
          (ob, [Exit.returnedNil, Exit.returnedNil, Exit.returnedNil, Exit.returnedNil]) ∧
        ob.events.getLast? = some (Event.sysstat t4 [("cpuused", 10)] [("cpuused", 10)])) ∧
    runInstanceCycles (mustParseTime (fun s => some s)) instanceScenario
        (Orabeat.start String Int) =
      ({ prevSystemStats := [("cpuused", 150)],
         sessionStatistics := NewSessionStatistics Int,
         events := [Event.sysstat "2016-03-16T01:27:39.047Z" [("cpuused", 100)] [("cpuused", 0)],
                    Event.sysstat "2016-03-16T01:27:49.047Z" [("cpuused", 150)]
                      [("cpuused", 50)]] },
        [Exit.returnedNil, Exit.returnedNil, Exit.panicked]) := by
  refine ⟨?_, by decide⟩
  rintro ⟨parseTime, ob, t4, hrun, hlast⟩
  simp only [instanceScenario, runInstanceCycles, exportSystemStats_cpuUsed,
    exportSystemStats_empty] at hrun
  cases h1 : parseTime "2016-03-16T01:27:39.047Z" with
  | none => simp [h1] at hrun
  | some t1 =>
    cases h2 : parseTime "2016-03-16T01:27:49.047Z" with
    | none => simp [h1, h2] at hrun
    | some t2 =>
      cases h3 : parseTime "" with
      | none => simp [h1, h2, h3] at hrun
      | some t3 =>
        cases h4 : parseTime "2016-03-16T01:28:09.047Z" with
        | none => simp [h1, h2, h3, h4] at hrun
        | some t5 =>
          simp [h1, h2, h3, h4, Orabeat.start, deltaAgainst, GoMap.find] at hrun
          subst hrun
          simp at hlast

/-- C9, amended: starting from an empty tracker, the cycles observing
`cpuused: 100` and then `cpuused: 150` both return nil and publish `cpuused: 100`
with change 0 and `cpuused: 150` with change 50; and on any beat whose stored
previous snapshot is empty, a cycle observing `cpuused: 10` returns nil and
publishes `cpuused: 10` with change 0.  The timestamps of the rows are taken to
be accepted by the parser; nothing is said about a cycle with an empty result
set. -/
theorem instanceScenario_reports {τ : Type} (parseTime : String → Option τ) (t1 t2 t4 : τ)
    (h1 : parseTime "2016-03-16T01:27:39.047Z" = some t1)
    (h2 : parseTime "2016-03-16T01:27:49.047Z" = some t2)
    (h4 : parseTime "2016-03-16T01:28:09.047Z" = some t4) :
    runInstanceCycles (mustParseTime parseTime)
        [cpuUsed "2016-03-16T01:27:39.047Z" 100, cpuUsed "2016-03-16T01:27:49.047Z" 150]
        (Orabeat.start τ Int) =
      ({ prevSystemStats := [("cpuused", 150)],
         sessionStatistics := NewSessionStatistics Int,
         events := [Event.sysstat t1 [("cpuused", 100)] [("cpuused", 0)],
                    Event.sysstat t2 [("cpuused", 150)] [("cpuused", 50)]] },
        [Exit.returnedNil, Exit.returnedNil]) ∧
    (∀ ob : Orabeat τ Int, ob.prevSystemStats = [] →
      exportSystemStats (mustParseTime parseTime) (cpuUsed "2016-03-16T01:28:09.047Z" 10) ob =
        ({ prevSystemStats := [("cpuused", 10)],
           sessionStatistics := ob.sessionStatistics,
           events := ob.events ++ [Event.sysstat t4 [("cpuused", 10)] [("cpuused", 0)]] },
          Exit.returnedNil)) := by
  have e1 : mustParseTime parseTime "2016-03-16T01:27:39.047Z" = some t1 := by
    simp [mustParseTime, h1]
  have e2 : mustParseTime parseTime "2016-03-16T01:27:49.047Z" = some t2 := by
    simp [mustParseTime, h2]
  have e4 : mustParseTime parseTime "2016-03-16T01:28:09.047Z" = some t4 := by
    simp [mustParseTime, h4]
  refine ⟨?_, ?_⟩
  · simp [runInstanceCycles, exportSystemStats_cpuUsed, e1, e2, Orabeat.start, deltaAgainst,
      GoMap.find]
  · intro ob hprev
    simp [exportSystemStats_cpuUsed, e4, hprev, deltaAgainst, GoMap.find]

theorem instanceScenario_reports_witness :
    runInstanceCycles (mustParseTime (fun s => some s))
        [cpuUsed "2016-03-16T01:27:39.047Z" 100, cpuUsed "2016-03-16T01:27:49.047Z" 150]
        (Orabeat.start String Int) =
      ({ prevSystemStats := [("cpuused", 150)],
         sessionStatistics := NewSessionStatistics Int,
         events := [Event.sysstat "2016-03-16T01:27:39.047Z" [("cpuused", 100)] [("cpuused", 0)],
                    Event.sysstat "2016-03-16T01:27:49.047Z" [("cpuused", 150)]
                      [("cpuused", 50)]] },
        [Exit.returnedNil, Exit.returnedNil]) ∧
    exportSystemStats (mustParseTime (fun s => some s)) (cpuUsed "2016-03-16T01:28:09.047Z" 10)
        (Orabeat.start String Int) =
      ({ prevSystemStats := [("cpuused", 10)],
         sessionStatistics := (Orabeat.start String Int).sessionStatistics,
         events := (Orabeat.start String Int).events ++
           [Event.sysstat "2016-03-16T01:28:09.047Z" [("cpuused", 10)] [("cpuused", 0)]] },
        Exit.returnedNil) :=
  ⟨(instanceScenario_reports (fun s => some s) _ _ _ rfl rfl rfl).1,
    (instanceScenario_reports (fun s => some s) _ _ _ rfl rfl rfl).2 (Orabeat.start String Int)
      rfl⟩

/-! ## Sessions and the registry -/

theorem addSessionStat_find {α : Type} [Zero α] [Sub α] (s : Session α) (name : String)
    (value : α) :
    GoMap.find (s.addSessionStat name value).metrics name = some value ∧
    GoMap.find (s.addSessionStat name value).change name =
      some (deltaAgainst s.prevMetrics name value) ∧
    (∀ k, k ≠ name →
      GoMap.find (s.addSessionStat name value).metrics k = GoMap.find s.metrics k ∧
      GoMap.find (s.addSessionStat name value).change k = GoMap.find s.change k) ∧
    (s.addSessionStat name value).prevMetrics = s.prevMetrics := by
  refine ⟨GoMap.find_assign_same _ _ _, ?_, ?_, rfl⟩
  · simp only [Session.addSessionStat, deltaAgainst]
    exact GoMap.find_assign_same _ _ _
  · intro k hk
    exact ⟨GoMap.find_assign_ne _ _ _ _ (Ne.symm hk), GoMap.find_assign_ne _ _ _ _ (Ne.symm hk)⟩

theorem recordAll_prevMetrics {α : Type} [Zero α] [Sub α] (calls : List (String × α)) :
    ∀ s : Session α, (recordAll s calls).prevMetrics = s.prevMetrics := by
  induction calls with
  | nil => intro s; rfl
  | cons c cs ih =>
    intro s
    simp only [recordAll, List.foldl_cons]
    exact (ih _).trans rfl

theorem addSessionStat_deltaInv {α : Type} [Zero α] [Sub α] (s : Session α) (name : String)
    (value : α) (k : String) (h : k = name ∨ deltaInv s.prevMetrics s k) :
    deltaInv s.prevMetrics (s.addSessionStat name value) k := by
  obtain ⟨h1, h2, h3, _⟩ := addSessionStat_find s name value
  by_cases hk : k = name
  · subst hk
    exact ⟨value, h1, h2⟩
  · rcases h with h | ⟨v, hv1, hv2⟩
    · exact absurd h hk
    · exact ⟨v, (h3 k hk).1.trans hv1, (h3 k hk).2.trans hv2⟩

theorem recordAll_deltaInv {α : Type} [Zero α] [Sub α] (calls : List (String × α)) :
    ∀ (s : Session α) (k : String), (k ∈ calls.map Prod.fst ∨ deltaInv s.prevMetrics s k) →
      deltaInv s.prevMetrics (recordAll s calls) k := by
  induction calls with
  | nil =>
    intro s k h
    rcases h with h | h
    · simp at h
    · exact h
  | cons c cs ih =>
    intro s k h
    have hstep : recordAll s (c :: cs) = recordAll (s.addSessionStat c.1 c.2) cs := rfl
    rw [hstep]
    have hp : (s.addSessionStat c.1 c.2).prevMetrics = s.prevMetrics := rfl
    rw [← hp]
    apply ih
    rcases h with h | h
    · simp only [List.map_cons, List.mem_cons] at h
      rcases h with h | h
      · exact Or.inr (addSessionStat_deltaInv s c.1 c.2 k (Or.inl h))
      · exact Or.inl h
    · exact Or.inr (addSessionStat_deltaInv s c.1 c.2 k (Or.inr h))

/-- C2 as stated fails: a session first seen with `dbblockgets = 3` (no previous
value) gets change 0, not `3 - 0`. -/
theorem addSessionStat_first_seen_change_zero :
    GoMap.find ((scott [] [] []).addSessionStat "dbblockgets" 3).change "dbblockgets" = some 0 ∧
    GoMap.find ((scott [] [] []).addSessionStat "dbblockgets" 3).change "dbblockgets" ≠
      some (3 - (GoMap.find (scott [] [] []).prevMetrics "dbblockgets").getD 0) := by
  decide

/-- C2, amended: `addSessionStat` sets `current[name] = value` and
`change[name] = value - previous[name]` when `name` is a key of `previous`, and
`change[name] = 0` when it is not; every other entry of `current` and `change`,
the whole of `previous` and the descriptive attributes are unchanged.  After any
sequence of calls in a cycle, every key `k` written in it has
`change[k] = current[k] - previous[k]` when `k` is a key of `previous` and
`change[k] = 0` otherwise. -/
theorem addSessionStat_spec {α : Type} [Zero α] [Sub α] (s : Session α) (name : String)
    (value : α) :
    GoMap.find (s.addSessionStat name value).metrics name = some value ∧
    (∀ p, GoMap.find s.prevMetrics name = some p →
      GoMap.find (s.addSessionStat name value).change name = some (value - p)) ∧
    (GoMap.find s.prevMetrics name = none →
      GoMap.find (s.addSessionStat name value).change name = some 0) ∧
    (∀ k, k ≠ name →
      GoMap.find (s.addSessionStat name value).metrics k = GoMap.find s.metrics k ∧
      GoMap.find (s.addSessionStat name value).change k = GoMap.find s.change k) ∧
    (s.addSessionStat name value).prevMetrics = s.prevMetrics ∧
    ((s.addSessionStat name value).sid = s.sid ∧ (s.addSessionStat name value).serial = s.serial ∧
      (s.addSessionStat name value).machine = s.machine ∧
      (s.addSessionStat name value).username = s.username ∧
      (s.addSessionStat name value).program = s.program) ∧
    (∀ (calls : List (String × α)) (k : String), k ∈ calls.map Prod.fst →
      ∃ v, GoMap.find (recordAll s calls).metrics k = some v ∧
        (∀ p, GoMap.find s.prevMetrics k = some p →
          GoMap.find (recordAll s calls).change k = some (v - p)) ∧
        (GoMap.find s.prevMetrics k = none →
          GoMap.find (recordAll s calls).change k = some 0)) := by
  obtain ⟨h1, h2, h3, h4⟩ := addSessionStat_find s name value
  refine ⟨h1, ?_, ?_, h3, h4, ⟨rfl, rfl, rfl, rfl, rfl⟩, ?_⟩
  · intro p hp
    rw [h2]; simp [deltaAgainst, hp]
  · intro hp
    rw [h2]; simp [deltaAgainst, hp]
  · intro calls k hk
    obtain ⟨v, hv1, hv2⟩ := recordAll_deltaInv calls s k (Or.inl hk)
    refine ⟨v, hv1, ?_, ?_⟩
    · intro p hp
      rw [hv2]; simp [deltaAgainst, hp]
    · intro hp
      rw [hv2]; simp [deltaAgainst, hp]

theorem addSessionStat_spec_witness :
    GoMap.find (scott [("dbblockgets", 3)] [] []).prevMetrics "dbblockgets" = some 3 ∧
    GoMap.find ((scott [("dbblockgets", 3)] [] []).addSessionStat "dbblockgets" 7).change
      "dbblockgets" = some (7 - 3) :=
  ⟨by decide,
    (addSessionStat_spec (scott [("dbblockgets", 3)] [] []) "dbblockgets" 7).2.1 3 (by decide)⟩

theorem ensureSession_hit {α : Type} (ss : SessionStatistics α) (sid serial : Nat)
    (machine username program : String) (s : Session α)
    (h : GoMap.find ss.Sessions (sessionId sid serial) = some s) :
    ss.ensureSession sid serial machine username program = (ss, some s) := by
  simp [SessionStatistics.ensureSession, SessionStatistics.ensureSessionLookup, h]

theorem ensureSession_miss {α : Type} (ss : SessionStatistics α) (sid serial : Nat)
    (machine username program : String)
    (h : GoMap.find ss.Sessions (sessionId sid serial) = none) :
    ss.ensureSession sid serial machine username program =
      ({ Sessions := GoMap.assign ss.Sessions (sessionId sid serial)
          { sid := sid, serial := serial, machine := machine, username := username,
            program := program, prevMetrics := [], metrics := [], change := [] } },
        some { sid := sid, serial := serial, machine := machine, username := username,
               program := program, prevMetrics := [], metrics := [], change := [] }) := by
  simp [SessionStatistics.ensureSession, SessionStatistics.ensureSessionLookup,
    SessionStatistics.ensureSessionCreate, h]

/-- C3: run without concurrent callers, `ensureSession` on an identity the
registry already has returns the stored session and leaves the registry as it
is, whatever attributes are passed; on an identity it does not have it returns a
new session with the given sid, serial, machine, username and program and empty
counter maps, binds the identity to that session, and leaves every other entry
unchanged. -/
theorem ensureSession_spec {α : Type} (ss : SessionStatistics α) (sid serial : Nat)
    (machine username program : String) :
    (∀ s, GoMap.find ss.Sessions (sessionId sid serial) = some s →
      ss.ensureSession sid serial machine username program = (ss, some s)) ∧
    (GoMap.find ss.Sessions (sessionId sid serial) = none →
      (ss.ensureSession sid serial machine username program).2 =
        some { sid := sid, serial := serial, machine := machine, username := username,
               program := program, prevMetrics := [], metrics := [], change := [] } ∧
      GoMap.find (ss.ensureSession sid serial machine username program).1.Sessions
          (sessionId sid serial) =
        (ss.ensureSession sid serial machine username program).2 ∧
      (∀ k, k ≠ sessionId sid serial →
        GoMap.find (ss.ensureSession sid serial machine username program).1.Sessions k =
          GoMap.find ss.Sessions k)) := by
  refine ⟨fun s h => ensureSession_hit ss sid serial machine username program s h, ?_⟩
  intro h
  rw [ensureSession_miss ss sid serial machine username program h]
  refine ⟨rfl, GoMap.find_assign_same _ _ _, ?_⟩
  intro k hk
  exact GoMap.find_assign_ne _ _ _ _ (Ne.symm hk)

theorem ensureSession_spec_witness :
    GoMap.find (SessionStatistics.mk [("5,9", scott [("dbblockgets", 3)] [] [])]).Sessions
      (sessionId 5 9) = some (scott [("dbblockgets", 3)] [] []) ∧
    (SessionStatistics.mk [("5,9", scott [("dbblockgets", 3)] [] [])]).ensureSession 5 9
        "db02" "TIGER" "toad" =
      (SessionStatistics.mk [("5,9", scott [("dbblockgets", 3)] [] [])],
        some (scott [("dbblockgets", 3)] [] [])) :=
  ⟨by decide,
    (ensureSession_spec (SessionStatistics.mk [("5,9", scott [("dbblockgets", 3)] [] [])]) 5 9
      "db02" "TIGER" "toad").1 _ (by decide)⟩

/-- C4 fails on the code: on an empty registry, two `ensureSession` calls for
identity (5, 9) whose read-locked lookups both miss before either takes the write
lock create one session, and the second caller, finding the entry present under
the write lock, returns nil instead of that session. -/
theorem ensureSession_interleaved_returns_nil :
    ensureSessionInterleaved (NewSessionStatistics Int) 5 9 "db01" "SCOTT" "sqlplus" =
      ({ Sessions := [("5,9", scott [] [] [])] }, some (scott [] [] []), none) := by
  decide

/-- C5: `rollMetrics` on the registry keeps the tracked identities and rolls
every tracked session once: afterwards its previous map is its current map from
before the call, its current map is empty (so `Metrics` returns the empty map),
and its change map and descriptive attributes are as before. -/
theorem rollMetrics_spec {α : Type} (ss : SessionStatistics α) :
    GoMap.keys ss.rollMetrics.Sessions = GoMap.keys ss.Sessions ∧
    (∀ k, GoMap.find ss.rollMetrics.Sessions k =
      (GoMap.find ss.Sessions k).map Session.rollMetrics) ∧
    (∀ s : Session α,
      s.rollMetrics.prevMetrics = s.metrics ∧ s.rollMetrics.metrics = [] ∧
      s.rollMetrics.Metrics = [] ∧ s.rollMetrics.change = s.change ∧
      s.rollMetrics.sid = s.sid ∧ s.rollMetrics.serial = s.serial ∧
      s.rollMetrics.machine = s.machine ∧ s.rollMetrics.username = s.username ∧
      s.rollMetrics.program = s.program) := by
  refine ⟨?_, ?_, ?_⟩
  · simp [SessionStatistics.rollMetrics, GoMap.keys, List.map_map, Function.comp_def]
  · intro k
    exact GoMap.find_map Session.rollMetrics ss.Sessions k
  · intro s
    exact ⟨rfl, rfl, rfl, rfl, rfl, rfl, rfl, rfl, rfl⟩

theorem sesRowStep_spec {α : Type} [Zero α] [Sub α] (ss : SessionStatistics α) (r : SesRow α) :
    ∃ ss1, sesRowStep ss r = some ss1 ∧
      ∀ k, k ≠ sessionId r.sid r.serial → GoMap.find ss1.Sessions k = GoMap.find ss.Sessions k := by
  cases h : GoMap.find ss.Sessions (sessionId r.sid r.serial) with
  | some s =>
    have e : sesRowStep ss r = some (SessionStatistics.mk (GoMap.assign ss.Sessions
        (sessionId r.sid r.serial)
        (s.addSessionStat (cleanupStatName r.statName) r.value))) := by
      simp only [sesRowStep, ensureSession_hit ss _ _ _ _ _ s h]
    refine ⟨_, e, ?_⟩
    intro k hk
    exact GoMap.find_assign_ne _ _ _ _ (Ne.symm hk)
  | none =>
    have e : sesRowStep ss r = some (SessionStatistics.mk (GoMap.assign
        (GoMap.assign ss.Sessions (sessionId r.sid r.serial)
          { sid := r.sid, serial := r.serial, machine := r.machine, username := r.username,
            program := r.program, prevMetrics := [], metrics := [], change := [] })
        (sessionId r.sid r.serial)
        (Session.addSessionStat
          { sid := r.sid, serial := r.serial, machine := r.machine, username := r.username,
            program := r.program, prevMetrics := [], metrics := [], change := [] }
          (cleanupStatName r.statName) r.value))) := by
      simp only [sesRowStep, ensureSession_miss ss _ _ _ _ _ h]
    refine ⟨_, e, ?_⟩
    intro k hk
    simp only
    rw [GoMap.find_assign_ne _ _ _ _ (Ne.symm hk), GoMap.find_assign_ne _ _ _ _ (Ne.symm hk)]

theorem sesLoop_decoded {α : Type} [Zero α] [Sub α] (rows : List (SesRow α)) :
    ∀ ss : SessionStatistics α,
      (sesLoop ss (rows.map some)).2 = Exit.returnedNil ∧
      ∀ k, (∀ r ∈ rows, sessionId r.sid r.serial ≠ k) →
        GoMap.find (sesLoop ss (rows.map some)).1.Sessions k = GoMap.find ss.Sessions k := by
  induction rows with
  | nil => intro ss; exact ⟨rfl, fun _ _ => rfl⟩
  | cons r rows ih =>
    intro ss
    obtain ⟨ss1, h1, h2⟩ := sesRowStep_spec ss r
    have hstep : sesLoop ss ((r :: rows).map some) = sesLoop ss1 (rows.map some) := by
      simp only [List.map_cons, sesLoop, h1]
    rw [hstep]
    refine ⟨(ih ss1).1, ?_⟩
    intro k hk
    rw [(ih ss1).2 k (fun r2 hr2 => hk r2 (List.mem_cons_of_mem _ hr2))]
    exact h2 k (Ne.symm (hk r (List.mem_cons_self _ _)))

theorem exportSessionStats_decoded {τ α : Type} [Zero α] [Sub α] (now : Nat → τ)
    (ob : Orabeat τ α) (rows : List (SesRow α)) :
    exportSessionStats now (some (rows.map some)) ob =
      ({ ob with
          events := ob.events ++
            sessionEvents now 0 (sesLoop ob.sessionStatistics (rows.map some)).1.Sessions,
          sessionStatistics := (sesLoop ob.sessionStatistics (rows.map some)).1.rollMetrics },
        Exit.returnedNil) := by
  have h := (sesLoop_decoded rows ob.sessionStatistics).1
  generalize hl : sesLoop ob.sessionStatistics (rows.map some) = res at h
  obtain ⟨ss, e⟩ := res
  simp only at h
  subst h
  simp only [exportSessionStats, hl]

/-- C7 as stated fails: session (5, 9) reports 3 and then 7, so before the third
cycle its previous map is `dbblockgets: 7`; the third cycle has no row for it, and
afterwards its previous map is empty. -/
theorem absent_session_previous_not_frozen :
    (runSessionCycles (fun _ _ => ()) 0 sessionScenario (Orabeat.start Unit Int)).2 =
      [Exit.returnedNil, Exit.returnedNil, Exit.returnedNil] ∧
    GoMap.find (runSessionCycles (fun _ _ => ()) 0 (sessionScenario.take 2)
      (Orabeat.start Unit Int)).1.sessionStatistics.Sessions "5,9" =
      some (scott [("dbblockgets", 7)] [] [("dbblockgets", 4)]) ∧
    GoMap.find (runSessionCycles (fun _ _ => ()) 0 sessionScenario
      (Orabeat.start Unit Int)).1.sessionStatistics.Sessions "5,9" =
      some (scott [] [] [("dbblockgets", 4)]) ∧
    (scott [] [] [("dbblockgets", 4)]).prevMetrics ≠
      (scott [("dbblockgets", 7)] [] [("dbblockgets", 4)]).prevMetrics := by
  decide

/-- C7, amended: a tracked session with no row in a session cycle whose rows all
decode comes out of the cycle, end-of-cycle roll included, with its previous map
equal to its current map from before the cycle, its current map empty and its
change map as before; when its current map was empty before the cycle (it was
rolled at the end of the preceding one) its previous map is empty afterwards. -/
theorem exportSessionStats_absent_session {τ α : Type} [Zero α] [Sub α] (now : Nat → τ)
    (ob : Orabeat τ α) (rows : List (SesRow α)) (k : String) (s : Session α)
    (hk : GoMap.find ob.sessionStatistics.Sessions k = some s)
    (habs : ∀ r ∈ rows, sessionId r.sid r.serial ≠ k) :
    (exportSessionStats now (some (rows.map some)) ob).2 = Exit.returnedNil ∧
    GoMap.find (exportSessionStats now (some (rows.map some)) ob).1.sessionStatistics.Sessions k =
      some { s with prevMetrics := s.metrics, metrics := [] } ∧
    (s.metrics = [] →
      GoMap.find (exportSessionStats now (some (rows.map some)) ob).1.sessionStatistics.Sessions k =
        some { s with prevMetrics := [], metrics := [] }) := by
  have hfind : GoMap.find (exportSessionStats now (some (rows.map some))
      ob).1.sessionStatistics.Sessions k = some { s with prevMetrics := s.metrics, metrics := [] } := by
    rw [exportSessionStats_decoded]
    simp only [SessionStatistics.rollMetrics]
    rw [GoMap.find_map, (sesLoop_decoded rows ob.sessionStatistics).2 k habs, hk]
    rfl
  refine ⟨by rw [exportSessionStats_decoded], hfind, ?_⟩
  intro hm
  rw [hfind, hm]

theorem exportSessionStats_absent_session_witness :
    GoMap.find (Orabeat.mk [] (SessionStatistics.mk
        [("5,9", scott [("dbblockgets", 7)] [] [("dbblockgets", 4)])])
        ([] : List (Event Unit Int))).sessionStatistics.Sessions "5,9" =
      some (scott [("dbblockgets", 7)] [] [("dbblockgets", 4)]) ∧
    GoMap.find (exportSessionStats (fun _ => ())
        (some (([] : List (SesRow Int)).map some))
        (Orabeat.mk [] (SessionStatistics.mk
          [("5,9", scott [("dbblockgets", 7)] [] [("dbblockgets", 4)])])
          ([] : List (Event Unit Int)))).1.sessionStatistics.Sessions "5,9" =
      some (scott [] [] [("dbblockgets", 4)]) :=
  ⟨by decide,
    (exportSessionStats_absent_session (fun _ => ())
      (Orabeat.mk [] (SessionStatistics.mk
        [("5,9", scott [("dbblockgets", 7)] [] [("dbblockgets", 4)])])
        ([] : List (Event Unit Int)))
      ([] : List (SesRow Int)) "5,9" (scott [("dbblockgets", 7)] [] [("dbblockgets", 4)])
      (by decide) (by simp)).2.1⟩

end Beater
